import Mathlib

/-!
Verification model of `src/env/fallback.rs` (raft-engine fallback env):
`LogFd` (a RAII wrapper around one OS file descriptor), `LogFile`
(a cursor stream sharing a `LogFd` behind `Arc<RwLock<...>>`), and
`DefaultFileSystem` (path-level operations and stream construction).

The host OS state visible through one descriptor is modelled by `Ofd`
(an open file description: position, byte content, access flags).
Rust ownership of descriptors is modelled by `Sys`: a table of open
file descriptions, a per-descriptor close counter (each drop of a
`File` closes its descriptor once), and a table of `Arc` allocations
with strong counts.  Host-fallible syscalls (`ftruncate` behind
`File::set_len`) take an explicit `fault` oracle for the host's
accept/reject decision; `fault = none` is the success path.
-/

/-- Byte strings are lists of naturals (byte values). -/
abbrev Bytes : Type := List Nat

/-- I/O error kinds relevant to the modelled operations. -/
inductive IoError where
  | notFound
  | permissionDenied
  | invalidInput
  | other
deriving DecidableEq, Repr, Inhabited

/-- `Permission` from `src/env/mod.rs`, consumed by `LogFd::open`. -/
inductive Permission where
  | ReadOnly
  | ReadWrite
deriving DecidableEq, Repr, Inhabited

/-- An open file description: the OS-side state addressed by one
descriptor — cursor position, byte content, and the access flags the
file was opened with.  All `File` objects holding the same raw
descriptor share one `Ofd` (hence a single position). -/
structure Ofd where
  pos : Nat
  content : List Nat
  readFl : Bool
  writeFl : Bool
deriving DecidableEq, Repr, Inhabited

/-- `Write::write` on a `File`: writes `buf` at the current position
(zero-filling any gap between end of file and the position), advances
the shared position, returns the byte count written. -/
def Ofd.write (o : Ofd) (buf : List Nat) : Nat × Ofd :=
  let base := o.content ++ List.replicate (o.pos - o.content.length) 0
  let content := base.take o.pos ++ buf ++ base.drop (o.pos + buf.length)
  (buf.length, { o with pos := o.pos + buf.length, content := content })

/-- `Read::read` on a `File` into a buffer of capacity `k`: returns the
bytes from the current position (at most `k`, fewer at end of file) and
advances the shared position by the number of bytes read. -/
def Ofd.readBytes (o : Ofd) (k : Nat) : List Nat × Ofd :=
  let bs := (o.content.drop o.pos).take k
  (bs, { o with pos := o.pos + bs.length })

/-- `File::set_len(n)` (the host resize behind `LogFd::truncate`):
shrinks the content to `n` bytes or zero-extends it to `n` bytes; the
cursor position is not moved.  `fault` is the host's decision to reject
the resize; on rejection the state is unchanged. -/
def Ofd.setLen (o : Ofd) (n : Nat) (fault : Option IoError) : Except IoError Ofd :=
  match fault with
  | some e => .error e
  | none =>
    if n ≤ o.content.length then
      .ok { o with content := o.content.take n }
    else
      .ok { o with content := o.content ++ List.replicate (n - o.content.length) 0 }

/-- The bitwise content of a `LogFd` value: ownership of one raw
descriptor, identified by its index `did` into `Sys.ofds`.  Dropping a
`LogFd` value closes that descriptor (`File`'s drop). -/
structure LogFdV where
  did : Nat
deriving DecidableEq, Repr, Inhabited

/-- An `Arc` allocation holding a `LogFd`: strong reference count plus
the stored value.  (`Arc<RwLock<LogFd>>` is modelled the same way; the
lock guards no data in this sequential model.) -/
structure ArcAlloc where
  strong : Nat
  val : LogFdV
deriving DecidableEq, Repr, Inhabited

/-- The modelled world: open file descriptions indexed by descriptor id,
a per-descriptor count of how many times `close` ran on it, and the live
`Arc` allocations indexed by allocation id. -/
structure Sys where
  ofds : List Ofd
  closeCount : List Nat
  arcs : List ArcAlloc
deriving DecidableEq, Repr, Inhabited

/-- `close(did)`: the OS-level release performed by `File`'s drop. -/
def Sys.closeDid (s : Sys) (d : Nat) : Sys :=
  { s with closeCount := s.closeCount.set d (s.closeCount.getD d 0 + 1) }

/-- The open file description a descriptor id addresses. -/
def Sys.ofdAt (s : Sys) (d : Nat) : Ofd := s.ofds.getD d default

/-- Replace the open file description at a descriptor id. -/
def Sys.setOfd (s : Sys) (d : Nat) (o : Ofd) : Sys :=
  { s with ofds := s.ofds.set d o }

/-- `Arc::new(v)`: a fresh allocation with strong count 1; returns its id. -/
def Sys.arcNew (s : Sys) (v : LogFdV) : Nat × Sys :=
  (s.arcs.length, { s with arcs := s.arcs ++ [⟨1, v⟩] })

/-- `Arc::clone`: one more strong reference to the same allocation. -/
def Sys.arcClone (s : Sys) (aid : Nat) : Sys :=
  match s.arcs.get? aid with
  | some a => { s with arcs := s.arcs.set aid { a with strong := a.strong + 1 } }
  | none => s

/-- Dropping one `Arc` reference: the strong count decreases; when it
reaches zero the inner `LogFd` is dropped, closing its descriptor. -/
def Sys.arcDrop (s : Sys) (aid : Nat) : Sys :=
  match s.arcs.get? aid with
  | some a =>
    if a.strong ≤ 1 then
      (Sys.closeDid { s with arcs := s.arcs.set aid { a with strong := 0 } } a.val.did)
    else
      { s with arcs := s.arcs.set aid { a with strong := a.strong - 1 } }
  | none => s

/-- The descriptor id behind an `Arc` allocation. -/
def Sys.didOfArc (s : Sys) (aid : Nat) : Nat := (s.arcs.getD aid default).val.did

/-- The host file system seen by path operations: path to byte content. -/
abbrev HostFs : Type := List (String × List Nat)

/-- Lookup of a path in the host file system. -/
def HostFs.find : HostFs → String → Option (List Nat)
  | [], _ => none
  | e :: rest, p => if e.1 = p then some e.2 else HostFs.find rest p

/-- `File::options()` builder state: `read`, `write`, `create` flags
(all default to false). -/
structure OpenOptions where
  readFl : Bool := false
  writeFl : Bool := false
  createFl : Bool := false
deriving DecidableEq, Repr, Inhabited

/-- `OpenOptions::open(path)` against the host file system: an existing
file opens at position 0 with the requested access flags and its content
intact; a missing path is created empty when the `create` flag is set
(host create semantics: never truncates an existing file), otherwise the
open fails with the not-found kind. -/
def OpenOptions.openAt (opts : OpenOptions) (path : String) (hfs : HostFs) :
    Except IoError (Ofd × HostFs) :=
  match hfs.find path with
  | some c => .ok ({ pos := 0, content := c, readFl := opts.readFl, writeFl := opts.writeFl }, hfs)
  | none =>
    if opts.createFl then
      .ok ({ pos := 0, content := [], readFl := opts.readFl, writeFl := opts.writeFl },
        hfs ++ [(path, [])])
    else
      .error .notFound

/-- `LogFd::open(path, perm)`:
`File::options().read(true).write(perm == Permission::ReadWrite).open(path)`. -/
def LogFd.open (path : String) (perm : Permission) (hfs : HostFs) :
    Except IoError (Ofd × HostFs) :=
  OpenOptions.openAt
    { readFl := true, writeFl := perm == Permission.ReadWrite, createFl := false } path hfs

/-- `LogFd::create(path)`:
`File::options().read(true).write(true).create(true).open(path)`. -/
def LogFd.create (path : String) (hfs : HostFs) : Except IoError (Ofd × HostFs) :=
  OpenOptions.openAt { readFl := true, writeFl := true, createFl := true } path hfs

/-- `LogFd::truncate(offset)`: `self.0.set_len(offset as u64)`. -/
def LogFd.truncate (o : Ofd) (offset : Nat) (fault : Option IoError) :
    Except IoError Unit × Ofd :=
  match Ofd.setLen o offset fault with
  | .ok o' => (.ok (), o')
  | .error e => (.error e, o)

/-- `LogFd::allocate(_offset, _size)`: returns `Ok(())`, touching
nothing. -/
def LogFd.allocate (_o : Ofd) (_offset _size : Nat) : Except IoError Unit := .ok ()

/-- `LogFd::size` (and `Handle::file_size`): `self.0.metadata().len()`
on the success path. -/
def LogFd.size (o : Ofd) : Nat := o.content.length

/-- The in-memory fields of a `LogFile` cursor stream: the allocation id
of its `inner: Arc<RwLock<LogFd>>` and its private `offset` field. -/
structure LogFileV where
  inner : Nat
  offset : Nat
deriving DecidableEq, Repr, Inhabited

/-- `LogFile::new(fd: Arc<LogFd>)`:
`let fd = unsafe { Arc::into_raw(fd).read() };` followed by
`Self { inner: Arc::new(RwLock::new(fd)), offset: 0 }`.
`Arc::into_raw` consumes the argument without decrementing the strong
count (the raw pointer is then discarded), and `.read()` bitwise-copies
the `LogFd` out of the still-live allocation — so the descriptor
ownership is duplicated into the fresh allocation while the original
allocation still holds it. -/
def LogFile.new (s : Sys) (aid : Nat) : LogFileV × Sys :=
  let v := (s.arcs.getD aid default).val
  let p := s.arcNew v
  ({ inner := p.1, offset := 0 }, p.2)

/-- Dropping a `LogFile`: drops its `inner` `Arc` reference (when that
was the last reference, the copied `LogFd` is dropped and its descriptor
closed). -/
def LogFile.drop (s : Sys) (lf : LogFileV) : Sys := s.arcDrop lf.inner

/-- The descriptor id a stream's operations address. -/
def Sys.didOf (s : Sys) (lf : LogFileV) : Nat := s.didOfArc lf.inner

/-- `Write::write for LogFile`: `self.inner_mut().0.write(buf)` — writes
through the shared descriptor; the stream's `offset` field is not
touched. -/
def LogFile.write (s : Sys) (lf : LogFileV) (buf : List Nat) : Nat × Sys :=
  let d := s.didOf lf
  let r := (s.ofdAt d).write buf
  (r.1, s.setOfd d r.2)

/-- `Read::read for LogFile`: `self.inner_mut().0.read(buf)` — reads
from the shared descriptor's current position. -/
def LogFile.read (s : Sys) (lf : LogFileV) (k : Nat) : List Nat × Sys :=
  let d := s.didOf lf
  let r := (s.ofdAt d).readBytes k
  (r.1, s.setOfd d r.2)

/-- `WriteExt::truncate for LogFile`:
`self.inner().truncate(offset)?; self.offset = offset; Ok(())` — the
resize runs on the shared descriptor; on success (and only then) the
stream's private `offset` field is set to the requested offset. -/
def LogFile.truncate (s : Sys) (lf : LogFileV) (offset : Nat) (fault : Option IoError) :
    Except IoError Unit × LogFileV × Sys :=
  let d := s.didOf lf
  match LogFd.truncate (s.ofdAt d) offset fault with
  | (.ok _, o') => (.ok (), { lf with offset := offset }, s.setOfd d o')
  | (.error e, _) => (.error e, lf, s)

/-- `WriteExt::allocate for LogFile`: `self.inner().allocate(offset, size)`. -/
def LogFile.allocate (s : Sys) (lf : LogFileV) (offset size : Nat) :
    Except IoError Unit × Sys :=
  (LogFd.allocate (s.ofdAt (s.didOf lf)) offset size, s)

/-- Which form of the per-handle `RwLock` each `LogFile` stream
operation acquires: `self.inner()` is `read()` (the shared form),
`self.inner_mut()` is `write()` (the exclusive form). -/
inductive LockMode where
  | shared
  | exclusive
deriving DecidableEq, Repr

/-- The `LogFile` stream operations that go through the per-handle lock. -/
inductive StreamOp where
  | read
  | write
  | flush
  | seek
  | truncate
  | allocate
deriving DecidableEq, Repr

/-- Lock acquisition table of the `LogFile` impls, transcribed from
which guard each method calls: `write`, `flush`, `read` and `seek` call
`self.inner_mut()` (exclusive); `WriteExt::truncate` and
`WriteExt::allocate` call `self.inner()` (shared). -/
def LogFile.lockAcquired : StreamOp → LockMode
  | .read => .exclusive
  | .write => .exclusive
  | .flush => .exclusive
  | .seek => .exclusive
  | .truncate => .shared
  | .allocate => .shared

/-- `DefaultFileSystem::new_reader(handle)`: `Ok(LogFile::new(handle))`. -/
def DefaultFileSystem.newReader (s : Sys) (aid : Nat) : Except IoError LogFileV × Sys :=
  let p := LogFile.new s aid
  (.ok p.1, p.2)

/-- `DefaultFileSystem::new_writer(handle)`: `Ok(LogFile::new(handle))`. -/
def DefaultFileSystem.newWriter (s : Sys) (aid : Nat) : Except IoError LogFileV × Sys :=
  let p := LogFile.new s aid
  (.ok p.1, p.2)

/-- `DefaultFileSystem::open(path, perm)`: `LogFd::open(path, perm)`. -/
def DefaultFileSystem.open (path : String) (perm : Permission) (hfs : HostFs) :
    Except IoError (Ofd × HostFs) :=
  LogFd.open path perm hfs

/-- `DefaultFileSystem::create(path)`: `LogFd::create(path)`. -/
def DefaultFileSystem.create (path : String) (hfs : HostFs) :
    Except IoError (Ofd × HostFs) :=
  LogFd.create path hfs

/-- The state right after the engine opens a file: one descriptor
(id 0) whose open file description is `o`, never closed yet, and the
engine's handle `h = Arc::new(LogFd)` as allocation id 0. -/
def Sys.init (o : Ofd) : Sys :=
  { ofds := [o], closeCount := [0], arcs := [⟨1, ⟨0⟩⟩] }

/-- One stream built from the engine's handle:
`fs.new_writer(h.clone())` (equally a reader; both are
`LogFile::new`). -/
def setupWriter (o : Ofd) : LogFileV × Sys :=
  LogFile.new ((Sys.init o).arcClone 0) 0

/-- Two streams built from the same handle:
`a = fs.new_writer(h.clone()); b = fs.new_reader(h.clone())`. -/
def setupPair (o : Ofd) : LogFileV × LogFileV × Sys :=
  let p := LogFile.new ((Sys.init o).arcClone 0) 0
  let q := LogFile.new (p.2.arcClone 0) 0
  (p.1, q.1, q.2)

/-- The run
`h = Arc::new(LogFd); r = fs.new_reader(h.clone());
w = fs.new_writer(h.clone()); drop(r); drop(w); drop(h)`. -/
def scenarioDoubleClose : Sys :=
  let s0 := Sys.init { pos := 0, content := [], readFl := true, writeFl := true }
  let r := LogFile.new (s0.arcClone 0) 0
  let w := LogFile.new (r.2.arcClone 0) 0
  let s1 := LogFile.drop w.2 r.1
  let s2 := LogFile.drop s1 w.1
  s2.arcDrop 0

/-- C1: the claim says a Handle's descriptor is never duplicated and is
released exactly once, when the last reference is dropped.  On the code,
building a reader and a writer from one handle and dropping them closes
the single underlying descriptor twice — and the handle's own
allocation is still live (strong count 2) at that point, so the
descriptor was also invalidated while the Handle referenced it. -/
theorem c1_double_close :
    scenarioDoubleClose.closeCount.getD 0 0 = 2 ∧
    (scenarioDoubleClose.arcs.getD 0 default).strong = 2 := by
  decide

/-- C2: the claim says `read` acquires the shared lock and `truncate`
the exclusive one; in the code `Read::read` calls `self.inner_mut()`
(the exclusive form) and `WriteExt::truncate` calls `self.inner()` (the
shared form). -/
theorem c2_lock_claim_false :
    ¬ (LogFile.lockAcquired StreamOp.read = LockMode.shared ∧
       LogFile.lockAcquired StreamOp.truncate = LockMode.exclusive) := by
  decide

/-- C2 (amended): `read`, `write`, `flush` and `seek` all acquire the
exclusive (write) form of the per-handle lock, while `truncate` and
`allocate` acquire the shared (read) form. -/
theorem c2_lock_modes :
    LogFile.lockAcquired StreamOp.read = LockMode.exclusive ∧
    LogFile.lockAcquired StreamOp.write = LockMode.exclusive ∧
    LogFile.lockAcquired StreamOp.flush = LockMode.exclusive ∧
    LogFile.lockAcquired StreamOp.seek = LockMode.exclusive ∧
    LogFile.lockAcquired StreamOp.truncate = LockMode.shared ∧
    LogFile.lockAcquired StreamOp.allocate = LockMode.shared := by
  decide

/-- C9: `new_reader` and `new_writer` of the default file system always
return a successfully constructed stream, for every state and handle. -/
theorem c9_new_reader_writer_infallible (s : Sys) (aid : Nat) :
    (DefaultFileSystem.newReader s aid).1.isOk = true ∧
    (DefaultFileSystem.newWriter s aid).1.isOk = true :=
  ⟨rfl, rfl⟩

/-- C3: two streams built from the same handle observe one shared
descriptor position: after writing `buf` via stream A, the position
seen through stream B is A's post-write position, and a read via B
with no intervening seek on B returns the post-write content starting
exactly there. -/
theorem c3_shared_position (o : Ofd) (buf : List Nat) (k : Nat) :
    let p := setupPair o
    let w := LogFile.write p.2.2 p.1 buf
    let r := LogFile.read w.2 p.2.1 k
    (w.2.ofdAt (w.2.didOf p.2.1)).pos = o.pos + buf.length ∧
    r.1 = ((Ofd.write o buf).2.content.drop (o.pos + buf.length)).take k :=
  ⟨rfl, rfl⟩

/-- C4: `WriteExt::truncate(n)` on a writer stream succeeds when the
host accepts the resize, records `n` in the stream's private `offset`
field, and resizes the shared descriptor to `n` bytes — the new size is
visible through the other stream sharing the same handle. -/
theorem c4_truncate_resizes_and_records (o : Ofd) (n : Nat) :
    let p := setupPair o
    let t := LogFile.truncate p.2.2 p.1 n none
    t.1 = .ok () ∧
    t.2.1.offset = n ∧
    LogFd.size (t.2.2.ofdAt (t.2.2.didOf p.2.1)) = n := by
  by_cases h : n ≤ o.content.length <;>
    (simp [setupPair, Sys.init, LogFile.new, Sys.arcClone, Sys.arcNew, Sys.didOf,
      Sys.didOfArc, Sys.ofdAt, Sys.setOfd, LogFile.truncate, LogFd.truncate,
      Ofd.setLen, LogFd.size, h]; try omega)

/-- C5: for every prior state and every `n` (below, at, or above the
prior size), `Handle::truncate(n)` followed by `file_size()` returns
exactly `n`; shrinking keeps the first `n` bytes and extension pads with
zero-filled bytes. -/
theorem c5_truncate_then_size (o : Ofd) (n : Nat) :
    (LogFd.truncate o n none).1 = .ok () ∧
    LogFd.size (LogFd.truncate o n none).2 = n ∧
    (LogFd.truncate o n none).2.content =
      (if n ≤ o.content.length then o.content.take n
       else o.content ++ List.replicate (n - o.content.length) 0) := by
  by_cases h : n ≤ o.content.length <;>
    (simp [LogFd.truncate, Ofd.setLen, LogFd.size, h]; try omega)

/-- C6: `open(path, perm)` opens an existing file with read access
always enabled and write access enabled exactly when
`perm == ReadWrite`, and fails with the not-found kind when the path
does not exist. -/
theorem c6_open_flags_and_not_found (path : String) (perm : Permission) (hfs : HostFs) :
    DefaultFileSystem.open path perm hfs =
      (match hfs.find path with
       | none => .error IoError.notFound
       | some c => .ok ({ pos := 0, content := c, readFl := true,
                          writeFl := perm == Permission.ReadWrite }, hfs)) := by
  cases h : hfs.find path <;>
    simp [DefaultFileSystem.open, LogFd.open, OpenOptions.openAt, h]

/-- C7: `create(path)` opens for read and write, creating an empty file
when the path is absent, and preserves the existing content untouched
when the path exists (open-or-create, never create-or-replace). -/
theorem c7_create_preserves_content (path : String) (hfs : HostFs) :
    DefaultFileSystem.create path hfs =
      (match hfs.find path with
       | some c => .ok ({ pos := 0, content := c, readFl := true, writeFl := true }, hfs)
       | none => .ok ({ pos := 0, content := [], readFl := true, writeFl := true },
           hfs ++ [(path, [])])) := by
  cases h : hfs.find path <;>
    simp [DefaultFileSystem.create, LogFd.create, OpenOptions.openAt, h]

/-- C8: `allocate(offset, size)` returns success and leaves the whole
state unchanged: `file_size()` is unchanged and a read immediately
after it returns the same bytes as a read before it. -/
theorem c8_allocate_noop (o : Ofd) (offset size k : Nat) :
    let p := setupWriter o
    let a := LogFile.allocate p.2 p.1 offset size
    a.1 = .ok () ∧
    a.2 = p.2 ∧
    LogFd.size (a.2.ofdAt (a.2.didOf p.1)) = LogFd.size (p.2.ofdAt (p.2.didOf p.1)) ∧
    (LogFile.read a.2 p.1 k).1 = (LogFile.read p.2 p.1 k).1 :=
  ⟨rfl, rfl, rfl, rfl⟩

/-- C10: `WriteExt::truncate(n)` on a writer whose recorded offset is
`m` succeeds exactly when the host accepts the resize, and the private
`offset` field ends at `n` when the call returns success and stays `m`
when it returns an error. -/
theorem c10_truncate_offset_iff_ok (o : Ofd) (m n : Nat) (fault : Option IoError) :
    let p := setupWriter o
    let a : LogFileV := { p.1 with offset := m }
    let t := LogFile.truncate p.2 a n fault
    ((t.1).isOk = true ↔ fault = none) ∧
    t.2.1.offset = (if (t.1).isOk then n else m) := by
  cases fault with
  | none =>
    by_cases h : n ≤ o.content.length <;>
      simp [setupWriter, Sys.init, LogFile.new, Sys.arcClone, Sys.arcNew, Sys.didOf,
        Sys.didOfArc, Sys.ofdAt, Sys.setOfd, LogFile.truncate, LogFd.truncate,
        Ofd.setLen, h, Except.isOk, Except.toBool]
  | some e =>
    simp [setupWriter, Sys.init, LogFile.new, Sys.arcClone, Sys.arcNew, Sys.didOf,
      Sys.didOfArc, Sys.ofdAt, Sys.setOfd, LogFile.truncate, LogFd.truncate,
      Ofd.setLen, Except.isOk, Except.toBool]
